import Mathlib

/-!
Verification of the AlphaLens prediction-market contract
(src/backend/contracts/AlphaLens.sol) against its specification.

Shallow embedding conventions:
* `uint256` values (stakes, counters, reputation) are modelled as `Nat`.
  Solidity 0.8 uses checked arithmetic: an addition overflowing 2^256 or a
  subtraction below zero reverts.  Additions in this contract act on amounts
  of attached value and small counters, far below 2^256, so they are
  modelled as plain `Nat` addition; the one subtraction in the contract,
  `reputation[creator] -= 5`, can genuinely underflow at reachable values,
  so it is modelled with an explicit check that produces `Err.Underflow`
  (the EVM checked-arithmetic panic).
* `address` is modelled as `Nat`; the cast `address(uint160(i))` becomes
  `i % 2 ^ 160`.
* A reverting call is an `Except.error`: the EVM rolls back every state
  change of the transaction, so a failed operation has no successor state
  at all, which models "performs no state change on failure".
* `payable(staker).transfer(reward)` is modelled by emitting the pair
  `(staker, reward)` into a transfer list returned alongside the new state;
  delivery of value to an externally-owned account is an environment
  effect outside the contract's storage.
* `require(cond, "msg")` failures are mapped to the error names the
  specification uses: "Invalid prediction ID" is `InvalidPrediction`,
  "Stake amount must be greater than 0" is `ZeroAmount`,
  "Prediction already resolved" is `AlreadyResolved`,
  "Only the creator can resolve the prediction" is `Unauthorized`.
-/

namespace AlphaLens

/-- One element of the `predictions` array of the contract.  The two
Solidity `mapping(address => uint256)` fields become total functions that
are zero outside the finitely many addresses ever written. -/
structure Prediction where
  creator : Nat
  text : String
  agrees : Nat
  disagrees : Nat
  totalStake : Nat
  resolved : Bool
  outcome : Bool
  agreeStakes : Nat → Nat
  disagreeStakes : Nat → Nat

/-- A fresh, zero-initialised prediction slot, as produced by
`predictions.push()` before the fields are assigned. -/
def Prediction.empty : Prediction :=
  { creator := 0, text := "", agrees := 0, disagrees := 0, totalStake := 0,
    resolved := false, outcome := false,
    agreeStakes := fun _ => 0, disagreeStakes := fun _ => 0 }

instance : Inhabited Prediction := ⟨Prediction.empty⟩

/-- The contract storage: the `predictions` array and the global
`reputation` mapping. -/
structure ContractState where
  predictions : List Prediction
  reputation : Nat → Nat

/-- Error outcomes of a reverting call. -/
inductive Err where
  | InvalidPrediction
  | ZeroAmount
  | AlreadyResolved
  | Unauthorized
  | Underflow
deriving DecidableEq, Repr

/-- Storage of a freshly deployed contract: no predictions, all
reputations zero. -/
def initState : ContractState := ⟨[], fun _ => 0⟩

/-- `predictions[id]`, with the zero prediction as default out of range
(reads are always guarded by an `id < length` require in the contract). -/
def predAt (s : ContractState) (id : Nat) : Prediction :=
  s.predictions.getD id default

/-- `postPrediction`: push a zeroed prediction and set creator and text.
Always succeeds. -/
def postPrediction (s : ContractState) (creator : Nat) (text : String) :
    ContractState :=
  { s with predictions := s.predictions ++
      [{ Prediction.empty with creator := creator, text := text }] }

/-- The update `stake` performs on the prediction it targets: bump the
side's event counter, add `value` to the sender's ledger entry on that
side, and add `value` to `totalStake`. -/
def stakedPred (p : Prediction) (sender value : Nat) (agree : Bool) :
    Prediction :=
  if agree then
    { p with agrees := p.agrees + 1,
             agreeStakes := fun a =>
               if a = sender then p.agreeStakes a + value else p.agreeStakes a,
             totalStake := p.totalStake + value }
  else
    { p with disagrees := p.disagrees + 1,
             disagreeStakes := fun a =>
               if a = sender then p.disagreeStakes a + value
               else p.disagreeStakes a,
             totalStake := p.totalStake + value }

/-- `stake(_predictionId, _agree)` with `msg.sender = sender` and
`msg.value = value`, following the contract's require order. -/
def stake (s : ContractState) (sender value id : Nat) (agree : Bool) :
    Except Err ContractState :=
  if id < s.predictions.length then
    if value = 0 then .error .ZeroAmount
    else if (predAt s id).resolved then .error .AlreadyResolved
    else .ok { s with
      predictions :=
        s.predictions.set id (stakedPred (predAt s id) sender value agree) }
  else .error .InvalidPrediction

/-- The payout loop of `resolvePrediction`: for each `i` below the number
of predictions in the store, cast `i` to an address, look up that
address's stake on the winning side, and if it is positive emit a transfer
of `stakeAmt * rewardPool / divisor`, where `divisor` is the winning
side's event counter. -/
def payoutTransfers (n : Nat) (stakes : Nat → Nat) (rewardPool divisor : Nat) :
    List (Nat × Nat) :=
  (List.range n).filterMap (fun i =>
    if stakes (i % 2 ^ 160) > 0 then
      some (i % 2 ^ 160, stakes (i % 2 ^ 160) * rewardPool / divisor)
    else none)

/-- Lines 80-104 of the contract: `rewardPool = totalStake`,
`winningStake = outcome ? agrees : disagrees` (the event counters), and
if `winningStake > 0` run the payout loop over the winning side's ledger
using the store length as the index bound and the event counter as the
divisor; otherwise no transfers. -/
def payoutPhase (s : ContractState) (id : Nat) (outcome : Bool) :
    List (Nat × Nat) :=
  if (if outcome then (predAt s id).agrees else (predAt s id).disagrees) > 0
  then
    if outcome then
      payoutTransfers s.predictions.length (predAt s id).agreeStakes
        (predAt s id).totalStake (predAt s id).agrees
    else
      payoutTransfers s.predictions.length (predAt s id).disagreeStakes
        (predAt s id).totalStake (predAt s id).disagrees
  else []

/-- The prediction after lines 77-78: `resolved = true`, `outcome` set. -/
def resolvedPred (p : Prediction) (outcome : Bool) : Prediction :=
  { p with resolved := true, outcome := outcome }

/-- `resolvePrediction(_predictionId, _outcome)` with `msg.sender = sender`.
Returns the post-state together with the list of transfers made by the
payout loop.  The reputation update `-= 5` reverts with `Underflow` when
the creator's reputation is below 5 (Solidity 0.8 checked subtraction);
the revert rolls back the whole call, including the resolved flag and the
transfers. -/
def resolvePrediction (s : ContractState) (sender id : Nat) (outcome : Bool) :
    Except Err (ContractState × List (Nat × Nat)) :=
  if id < s.predictions.length then
    if (predAt s id).resolved then .error .AlreadyResolved
    else if sender ≠ (predAt s id).creator then .error .Unauthorized
    else if outcome then
      .ok ({ predictions :=
               s.predictions.set id (resolvedPred (predAt s id) outcome),
             reputation := fun a =>
               if a = (predAt s id).creator then s.reputation a + 10
               else s.reputation a },
           payoutPhase s id outcome)
    else if s.reputation (predAt s id).creator < 5 then .error .Underflow
    else
      .ok ({ predictions :=
               s.predictions.set id (resolvedPred (predAt s id) outcome),
             reputation := fun a =>
               if a = (predAt s id).creator then s.reputation a - 5
               else s.reputation a },
           payoutPhase s id outcome)
  else .error .InvalidPrediction

/-- `true` exactly on non-reverting results. -/
def isOk {α : Type} : Except Err α → Bool
  | .ok _ => true
  | .error _ => false

/-- The error of a reverting result, `none` on success. -/
def errOf {α : Type} : Except Err α → Option Err
  | .ok _ => none
  | .error e => some e

/-- The transfers a `resolvePrediction` call makes; a reverted call
transfers nothing. -/
def resolveTransfers (s : ContractState) (sender id : Nat) (outcome : Bool) :
    List (Nat × Nat) :=
  match resolvePrediction s sender id outcome with
  | .ok (_, tr) => tr
  | .error _ => []

/-- The storage after a `resolvePrediction` call; a reverted call leaves
the storage unchanged. -/
def resolveState (s : ContractState) (sender id : Nat) (outcome : Bool) :
    ContractState :=
  match resolvePrediction s sender id outcome with
  | .ok (s', _) => s'
  | .error _ => s

/-- One external transaction against the contract. -/
inductive Op where
  | post (creator : Nat) (text : String)
  | stakeOp (sender value id : Nat) (agree : Bool)
  | resolveOp (sender id : Nat) (outcome : Bool)

/-- Apply one transaction; a reverting transaction leaves the storage
unchanged. -/
def step (s : ContractState) : Op → ContractState
  | .post c t => postPrediction s c t
  | .stakeOp sender v id agree =>
      match stake s sender v id agree with
      | .ok s' => s'
      | .error _ => s
  | .resolveOp sender id outcome => resolveState s sender id outcome

/-- The storage reached by a sequence of transactions from deployment. -/
def run (ops : List Op) : ContractState := ops.foldl step initState

/-! ### Basic lemmas about list reads used by the frame and invariant
proofs. -/

lemma getD_append_lt {α : Type} (l l' : List α) (i : Nat) (d : α)
    (h : i < l.length) : (l ++ l').getD i d = l.getD i d := by
  simp [List.getD, List.getElem?_append, h]

lemma getD_append_len {α : Type} (l : List α) (q d : α) :
    (l ++ [q]).getD l.length d = q := by
  simp [List.getD, List.getElem?_append_right (Nat.le_refl _)]

lemma getD_set_ne {α : Type} (l : List α) (i j : Nat) (a d : α)
    (h : i ≠ j) : (l.set i a).getD j d = l.getD j d := by
  simp [List.getD, List.getElem?_set_ne h]

lemma getD_set_self {α : Type} (l : List α) (i : Nat) (a d : α)
    (h : i < l.length) : (l.set i a).getD i d = a := by
  simp [List.getD, List.getElem?_set_self, h]

lemma getD_out {α : Type} (l : List α) (i : Nat) (d : α)
    (h : l.length ≤ i) : l.getD i d = d := by
  simp [List.getD, List.getElem?_eq_none h]

/-! ### Inversion lemmas for successful calls. -/

lemma stake_ok_inv {s s' : ContractState} {sender v id : Nat} {agree : Bool}
    (h : stake s sender v id agree = .ok s') :
    id < s.predictions.length ∧ v ≠ 0 ∧ (predAt s id).resolved = false ∧
    s' = { s with predictions :=
      s.predictions.set id (stakedPred (predAt s id) sender v agree) } := by
  unfold stake at h
  split at h
  case isTrue hlt =>
    split at h
    case isTrue => cases h
    case isFalse hv =>
      split at h
      case isTrue => cases h
      case isFalse hres =>
        cases h
        exact ⟨hlt, hv, by simpa using hres, rfl⟩
  case isFalse => cases h

lemma resolve_ok_inv {s s' : ContractState} {sender id : Nat}
    {outcome : Bool} {tr : List (Nat × Nat)}
    (h : resolvePrediction s sender id outcome = .ok (s', tr)) :
    id < s.predictions.length ∧ (predAt s id).resolved = false ∧
    sender = (predAt s id).creator ∧
    s'.predictions = s.predictions.set id (resolvedPred (predAt s id) outcome) ∧
    s'.reputation (predAt s id).creator =
      (if outcome then s.reputation (predAt s id).creator + 10
       else s.reputation (predAt s id).creator - 5) ∧
    (∀ a, a ≠ (predAt s id).creator → s'.reputation a = s.reputation a) ∧
    (outcome = false → 5 ≤ s.reputation (predAt s id).creator) ∧
    tr = payoutPhase s id outcome := by
  unfold resolvePrediction at h
  split at h
  case isFalse => cases h
  case isTrue hlt =>
    split at h
    case isTrue => cases h
    case isFalse hres =>
      split at h
      case isTrue => cases h
      case isFalse hcr =>
        split at h
        case isTrue hout =>
          cases h
          refine ⟨hlt, by simpa using hres, by simpa using hcr, rfl, ?_, ?_,
            ?_, rfl⟩
          · simp [hout]
          · intro a ha; simp [ha]
          · intro hfalse; rw [hout] at hfalse; cases hfalse
        case isFalse hout =>
          split at h
          case isTrue => cases h
          case isFalse hrep =>
            cases h
            have hout' : outcome = false := by
              cases outcome
              · rfl
              · exact absurd rfl hout
            refine ⟨hlt, by simpa using hres, by simpa using hcr, rfl, ?_, ?_,
              fun _ => by omega, rfl⟩
            · simp [hout']
            · intro a ha; simp [ha]

/-! ### The ledger-sum invariant (claim C3).

A `mapping(address => uint256)` is a total function that is zero outside
its finitely many written keys, so "the sum of all ledger entries" is the
sum over any duplicate-free list of addresses that contains every address
with a non-zero entry. -/

/-- Sum of a ledger mapping over a list of addresses. -/
def sumOn (f : Nat → Nat) (ds : List Nat) : Nat := (ds.map f).sum

/-- `ds` contains every address holding a non-zero ledger entry on either
side of `p`. -/
def Covers (p : Prediction) (ds : List Nat) : Prop :=
  ∀ a : Nat, p.agreeStakes a ≠ 0 ∨ p.disagreeStakes a ≠ 0 → a ∈ ds

/-- `totalStake` equals the sum of all ledger entries of `p`, across both
sides. -/
def LedgerOK (p : Prediction) : Prop :=
  ∀ ds : List Nat, ds.Nodup → Covers p ds →
    p.totalStake = sumOn p.agreeStakes ds + sumOn p.disagreeStakes ds

/-- Every prediction in the store satisfies the ledger-sum invariant. -/
def StateOK (s : ContractState) : Prop :=
  ∀ i, i < s.predictions.length → LedgerOK (predAt s i)

lemma sumOn_congr {f g : Nat → Nat} {ds : List Nat}
    (h : ∀ a ∈ ds, f a = g a) : sumOn f ds = sumOn g ds := by
  unfold sumOn
  rw [List.map_congr_left h]

lemma sumOn_zero (ds : List Nat) : sumOn (fun _ => 0) ds = 0 := by
  induction ds with
  | nil => rfl
  | cons y t ih =>
      simp only [sumOn, List.map_cons, List.sum_cons] at ih ⊢
      omega

lemma sumOn_update {f : Nat → Nat} {ds : List Nat} {x v : Nat}
    (hnd : ds.Nodup) (hx : x ∈ ds) :
    sumOn (fun a => if a = x then f a + v else f a) ds = sumOn f ds + v := by
  induction ds with
  | nil => cases hx
  | cons y t ih =>
      rw [List.nodup_cons] at hnd
      rcases List.mem_cons.mp hx with rfl | hxt
      · have hrest : ∀ a ∈ t, (if a = x then f a + v else f a) = f a := by
          intro a ha
          have hax : a ≠ x := fun he => hnd.1 (he ▸ ha)
          simp [hax]
        have hcongr := sumOn_congr
          (f := fun a => if a = x then f a + v else f a) (g := f) hrest
        have h1 : sumOn (fun a => if a = x then f a + v else f a) (x :: t) =
            (if x = x then f x + v else f x) +
              sumOn (fun a => if a = x then f a + v else f a) t := rfl
        have h2 : sumOn f (x :: t) = f x + sumOn f t := rfl
        rw [h1, h2, if_pos rfl, hcongr]
        omega
      · have hyx : y ≠ x := fun he => hnd.1 (he ▸ hxt)
        have hrec := ih hnd.2 hxt
        have h1 : sumOn (fun a => if a = x then f a + v else f a) (y :: t) =
            (if y = x then f y + v else f y) +
              sumOn (fun a => if a = x then f a + v else f a) t := rfl
        have h2 : sumOn f (y :: t) = f y + sumOn f t := rfl
        rw [h1, h2, if_neg hyx, hrec]
        omega

lemma LedgerOK_new (creator : Nat) (text : String) :
    LedgerOK { Prediction.empty with creator := creator, text := text } := by
  intro ds _ _
  show (0 : Nat) = sumOn (fun _ => 0) ds + sumOn (fun _ => 0) ds
  rw [sumOn_zero]

lemma LedgerOK_addAgree {p : Prediction} (hp : LedgerOK p)
    {sender v : Nat} (hv : v ≠ 0) :
    LedgerOK
      { p with agrees := p.agrees + 1,
               agreeStakes := fun a =>
                 if a = sender then p.agreeStakes a + v else p.agreeStakes a,
               totalStake := p.totalStake + v } := by
  intro ds hnd hcov
  have hsender : sender ∈ ds := by
    apply hcov sender
    left
    show ¬(if sender = sender then p.agreeStakes sender + v
           else p.agreeStakes sender) = 0
    rw [if_pos rfl]
    omega
  have hcovp : Covers p ds := by
    intro a ha
    apply hcov a
    rcases ha with ha | ha
    · left
      show ¬(if a = sender then p.agreeStakes a + v else p.agreeStakes a) = 0
      by_cases hax : a = sender
      · rw [if_pos hax]; omega
      · rw [if_neg hax]; exact ha
    · right; exact ha
  have hbase := hp ds hnd hcovp
  have hupd := sumOn_update (f := p.agreeStakes) (v := v) hnd hsender
  show p.totalStake + v =
    sumOn (fun a => if a = sender then p.agreeStakes a + v else p.agreeStakes a)
      ds + sumOn p.disagreeStakes ds
  omega

lemma LedgerOK_addDisagree {p : Prediction} (hp : LedgerOK p)
    {sender v : Nat} (hv : v ≠ 0) :
    LedgerOK
      { p with disagrees := p.disagrees + 1,
               disagreeStakes := fun a =>
                 if a = sender then p.disagreeStakes a + v
                 else p.disagreeStakes a,
               totalStake := p.totalStake + v } := by
  intro ds hnd hcov
  have hsender : sender ∈ ds := by
    apply hcov sender
    right
    show ¬(if sender = sender then p.disagreeStakes sender + v
           else p.disagreeStakes sender) = 0
    rw [if_pos rfl]
    omega
  have hcovp : Covers p ds := by
    intro a ha
    apply hcov a
    rcases ha with ha | ha
    · left; exact ha
    · right
      show ¬(if a = sender then p.disagreeStakes a + v
             else p.disagreeStakes a) = 0
      by_cases hax : a = sender
      · rw [if_pos hax]; omega
      · rw [if_neg hax]; exact ha
  have hbase := hp ds hnd hcovp
  have hupd := sumOn_update (f := p.disagreeStakes) (v := v) hnd hsender
  show p.totalStake + v = sumOn p.agreeStakes ds +
    sumOn (fun a =>
      if a = sender then p.disagreeStakes a + v else p.disagreeStakes a) ds
  omega

lemma LedgerOK_staked {p : Prediction} (hp : LedgerOK p)
    {sender v : Nat} (hv : v ≠ 0) :
    ∀ agree, LedgerOK (stakedPred p sender v agree)
  | true => LedgerOK_addAgree hp hv
  | false => LedgerOK_addDisagree hp hv

lemma LedgerOK_resolved {p : Prediction} (hp : LedgerOK p) (outcome : Bool) :
    LedgerOK (resolvedPred p outcome) :=
  hp

lemma StateOK_step {s : ContractState} (hs : StateOK s) (op : Op) :
    StateOK (step s op) := by
  cases op with
  | post c t =>
      intro i hi
      simp only [step, postPrediction, List.length_append,
        List.length_cons, List.length_nil] at hi
      by_cases hlt : i < s.predictions.length
      · have : predAt (postPrediction s c t) i = predAt s i := by
          simp only [predAt, postPrediction]
          exact getD_append_lt _ _ _ _ hlt
        simp only [step, this]
        exact hs i hlt
      · have hieq : i = s.predictions.length := by omega
        have : predAt (postPrediction s c t) i =
            { Prediction.empty with creator := c, text := t } := by
          simp only [predAt, postPrediction, hieq]
          exact getD_append_len _ _ _
        simp only [step, this]
        exact LedgerOK_new c t
  | stakeOp sender v id agree =>
      intro i hi
      simp only [step] at hi ⊢
      cases hst : stake s sender v id agree with
      | error e => simp only [hst] at hi ⊢; exact hs i hi
      | ok s' =>
          simp only [hst] at hi ⊢
          obtain ⟨hlt, hv, _, hs'⟩ := stake_ok_inv hst
          have hpreds : s'.predictions =
              s.predictions.set id (stakedPred (predAt s id) sender v agree) :=
            by rw [hs']
          rw [hpreds, List.length_set] at hi
          by_cases hieq : i = id
          · subst hieq
            have hpe : predAt s' i = stakedPred (predAt s i) sender v agree := by
              simp only [predAt, hpreds]
              exact getD_set_self _ _ _ _ hlt
            rw [hpe]
            exact LedgerOK_staked (hs i hlt) hv agree
          · have hpe : predAt s' i = predAt s i := by
              simp only [predAt, hpreds]
              exact getD_set_ne _ _ _ _ _ (fun he => hieq he.symm)
            rw [hpe]
            exact hs i hi
  | resolveOp sender id outcome =>
      intro i hi
      simp only [step, resolveState] at hi ⊢
      cases hr : resolvePrediction s sender id outcome with
      | error e => simp only [hr] at hi ⊢; exact hs i hi
      | ok res =>
          obtain ⟨s', tr⟩ := res
          simp only [hr] at hi ⊢
          obtain ⟨hlt, _, _, hpreds, _⟩ := resolve_ok_inv hr
          have hlen : s'.predictions.length = s.predictions.length := by
            rw [hpreds, List.length_set]
          rw [hlen] at hi
          by_cases hieq : i = id
          · subst hieq
            have : predAt s' i = resolvedPred (predAt s i) outcome := by
              simp only [predAt, hpreds]
              exact getD_set_self _ _ _ _ hlt
            rw [this]
            exact LedgerOK_resolved (hs i hlt) outcome
          · have : predAt s' i = predAt s i := by
              simp only [predAt, hpreds]
              exact getD_set_ne _ _ _ _ _ (fun he => hieq he.symm)
            rw [this]
            exact hs i hi

lemma StateOK_run (ops : List Op) : StateOK (run ops) := by
  have hinit : StateOK initState := by
    intro i hi
    simp [initState] at hi
  suffices h : ∀ s, StateOK s → StateOK (ops.foldl step s) from h initState hinit
  induction ops with
  | nil => intro s hs; exact hs
  | cons op rest ih =>
      intro s hs
      exact ih (step s op) (StateOK_step hs op)

/-! ### Concrete scenario states used by the claim theorems. -/

/-- The §8 scenario of the specification: creator 1000 posts a prediction,
2000 stakes 100 on agree, 3000 stakes 300 on agree, 4000 stakes 400 on
disagree. -/
def sScenario : ContractState := run
  [Op.post 1000 "p", Op.stakeOp 2000 100 0 true, Op.stakeOp 3000 300 0 true,
   Op.stakeOp 4000 400 0 false]

/-- Three predictions exist (so the payout loop enumerates addresses 0, 1
and 2); depositors with the small addresses 1 and 2 stake 100 and 300 on
the agree side of prediction 0. -/
def sSmallAddrs : ContractState := run
  [Op.post 1000 "a", Op.post 1000 "b", Op.post 1000 "c",
   Op.stakeOp 1 100 0 true, Op.stakeOp 2 300 0 true]

/-- A single open prediction created by address 10; every reputation is at
its default 0. -/
def sOpen : ContractState := run [Op.post 10 "t"]

/-- A single prediction by creator 5 that is already resolved. -/
def sResolved : ContractState :=
  { predictions := [{ Prediction.empty with creator := 5, resolved := true }],
    reputation := fun _ => 0 }

/-- A single open prediction by creator 10 whose reputation is 7, so both
a correct and an incorrect resolution succeed from here. -/
def sRep7 : ContractState :=
  { predictions := [{ Prediction.empty with creator := 10 }],
    reputation := fun _ => 7 }

/-! ### Claim theorems. -/

/-- C1 (code bug evidence): in the §8 scenario the winning side holds 400
of the 800-unit pool, so the spec requires transfers of
floor(100*800/400) = 200 to depositor 2000 and floor(300*800/400) = 600 to
depositor 3000.  The code's resolve succeeds but transfers nothing: its
payout loop enumerates the cast loop indices 0..0 (one prediction exists)
instead of the depositors, so neither winning depositor is reached, and
its divisor is the event counter, not the staked amount. -/
theorem C1_payout_divergence :
    isOk (resolvePrediction sScenario 1000 0 true) = true ∧
    (predAt sScenario 0).totalStake = 800 ∧
    (predAt sScenario 0).agreeStakes 2000 = 100 ∧
    (predAt sScenario 0).agreeStakes 3000 = 300 ∧
    (predAt sScenario 0).disagreeStakes 4000 = 400 ∧
    resolveTransfers sScenario 1000 0 true = [] := by
  refine ⟨by decide, by decide, by decide, by decide, by decide, by decide⟩

/-- C2 (code bug evidence): with pool 400 entirely staked on the winning
side (100 by address 1, 300 by address 2), the code pays
100*400/2 = 20000 and 300*400/2 = 60000 because it divides by the agree
event counter 2 instead of the total winning amount 400.  The payout sum
80000 exceeds the pool 400, and depositor 1's payout 20000 exceeds the
spec bound floor(100*400/400) = 100. -/
theorem C2_conservation_divergence :
    (predAt sSmallAddrs 0).totalStake = 400 ∧
    resolveTransfers sSmallAddrs 1000 0 true = [(1, 20000), (2, 60000)] ∧
    ((resolveTransfers sSmallAddrs 1000 0 true).map Prod.snd).sum = 80000 ∧
    (predAt sSmallAddrs 0).agreeStakes 1 * (predAt sSmallAddrs 0).totalStake /
      ((predAt sSmallAddrs 0).agreeStakes 1 +
       (predAt sSmallAddrs 0).agreeStakes 2) = 100 := by
  refine ⟨by decide, by decide, by decide, by decide⟩

/-- C3: at every observable boundary - any state reached by a sequence of
create/stake/resolve transactions from deployment - each prediction's
`totalStake` equals the sum of all of its ledger entries across both
sides, the sum being taken over any duplicate-free list of addresses that
covers every non-zero entry. -/
theorem C3_totalStake_invariant (ops : List Op) (i : Nat)
    (hi : i < (run ops).predictions.length) (ds : List Nat)
    (hnd : ds.Nodup) (hcov : Covers (predAt (run ops) i) ds) :
    (predAt (run ops) i).totalStake =
      sumOn (predAt (run ops) i).agreeStakes ds +
      sumOn (predAt (run ops) i).disagreeStakes ds :=
  StateOK_run ops i hi ds hnd hcov

/-- A small run used to witness C3: creator 5 posts, depositor 7 stakes 3
on agree, depositor 8 stakes 4 on disagree. -/
def opsSmall : List Op :=
  [Op.post 5 "t", Op.stakeOp 7 3 0 true, Op.stakeOp 8 4 0 false]

/-- Witness for C3: after the small run, prediction 0 carries totalStake
7 = 3 + 4, the sum of its ledger entries over the covering address list
[7, 8]. -/
theorem C3_witness :
    (predAt (run opsSmall) 0).totalStake =
      sumOn (predAt (run opsSmall) 0).agreeStakes [7, 8] +
      sumOn (predAt (run opsSmall) 0).disagreeStakes [7, 8] :=
  C3_totalStake_invariant opsSmall 0 (by decide) [7, 8] (by decide)
    (by
      intro a ha
      by_cases h7 : a = 7
      · simp [h7]
      · by_cases h8 : a = 8
        · simp [h8]
        · exfalso
          rcases ha with ha | ha
          · apply ha
            show (if a = 7 then 0 + 3 else 0) = 0
            simp [h7]
          · apply ha
            show (if a = 8 then 0 + 4 else 0) = 0
            simp [h8])

/-- C4: the resolved flag is monotone under every transaction, and a
resolve call on an already-resolved prediction reverts with
`AlreadyResolved` (hence no state change). -/
theorem C4_single_resolution :
    (∀ (s : ContractState) (op : Op) (i : Nat),
        (predAt s i).resolved = true →
        (predAt (step s op) i).resolved = true) ∧
    (∀ (s : ContractState) (sender id : Nat) (outcome : Bool),
        id < s.predictions.length → (predAt s id).resolved = true →
        resolvePrediction s sender id outcome = .error .AlreadyResolved) := by
  constructor
  · intro s op i h
    cases op with
    | post c t =>
        by_cases hlt : i < s.predictions.length
        · have hpe : predAt (step s (.post c t)) i = predAt s i := by
            simp only [step, postPrediction, predAt]
            exact getD_append_lt _ _ _ _ hlt
          rw [hpe]; exact h
        · exfalso
          have : predAt s i = default := getD_out _ _ _ (by omega)
          rw [this] at h
          exact Bool.false_ne_true h
    | stakeOp sender v id agree =>
        simp only [step]
        cases hst : stake s sender v id agree with
        | error e => exact h
        | ok s' =>
            obtain ⟨hlt, _, hres, hs'⟩ := stake_ok_inv hst
            show (predAt s' i).resolved = true
            by_cases hieq : i = id
            · exfalso
              subst hieq
              rw [hres] at h
              exact Bool.false_ne_true h
            · have hpe : predAt s' i = predAt s i := by
                rw [hs']
                simp only [predAt]
                exact getD_set_ne _ _ _ _ _ (fun he => hieq he.symm)
              rw [hpe]; exact h
    | resolveOp sender id outcome =>
        simp only [step, resolveState]
        cases hr : resolvePrediction s sender id outcome with
        | error e => exact h
        | ok res =>
            obtain ⟨s', tr⟩ := res
            obtain ⟨hlt, _, _, hpreds, _⟩ := resolve_ok_inv hr
            show (predAt s' i).resolved = true
            by_cases hieq : i = id
            · subst hieq
              have hpe : predAt s' i = resolvedPred (predAt s i) outcome := by
                simp only [predAt, hpreds]
                exact getD_set_self _ _ _ _ hlt
              rw [hpe]; rfl
            · have hpe : predAt s' i = predAt s i := by
                simp only [predAt, hpreds]
                exact getD_set_ne _ _ _ _ _ (fun he => hieq he.symm)
              rw [hpe]; exact h
  · intro s sender id outcome hlt h
    unfold resolvePrediction
    rw [if_pos hlt, if_pos h]

/-- Witness for C4 at a concrete resolved prediction. -/
theorem C4_witness :
    (predAt (step sResolved (Op.stakeOp 7 3 0 true)) 0).resolved = true ∧
    resolvePrediction sResolved 9 0 true = .error .AlreadyResolved :=
  ⟨C4_single_resolution.1 sResolved (Op.stakeOp 7 3 0 true) 0 (by decide),
   C4_single_resolution.2 sResolved 9 0 true (by decide) (by decide)⟩

/-- C5: a resolve call on an existing, unresolved prediction by any
identity other than the creator reverts with `Unauthorized` (hence the
resolved flag stays false and no state changes). -/
theorem C5_unauthorized_resolve (s : ContractState) (sender id : Nat)
    (outcome : Bool) (hlt : id < s.predictions.length)
    (hres : (predAt s id).resolved = false)
    (hne : sender ≠ (predAt s id).creator) :
    resolvePrediction s sender id outcome = .error .Unauthorized := by
  unfold resolvePrediction
  rw [if_pos hlt]
  simp [hres, hne]

/-- Witness for C5: address 6 cannot resolve the prediction created by
address 10. -/
theorem C5_witness : resolvePrediction sOpen 6 0 true = .error .Unauthorized :=
  C5_unauthorized_resolve sOpen 6 0 true (by decide) (by decide) (by decide)

/-! ### Claim C6: stake refines the specification's description. -/

lemma update_as_ite (f : Nat → Nat) (x v : Nat) :
    (fun a => if a = x then f a + v else f a) =
      Function.update f x (f x + v) := by
  funext a
  rw [Function.update_apply]
  by_cases h : a = x
  · rw [if_pos h, if_pos h, h]
  · rw [if_neg h, if_neg h]

lemma stakedPred_true (p : Prediction) (sender v : Nat) :
    stakedPred p sender v true =
      { p with agrees := p.agrees + 1,
               agreeStakes := Function.update p.agreeStakes sender
                 (p.agreeStakes sender + v),
               totalStake := p.totalStake + v } := by
  rw [← update_as_ite]
  rfl

lemma stakedPred_false (p : Prediction) (sender v : Nat) :
    stakedPred p sender v false =
      { p with disagrees := p.disagrees + 1,
               disagreeStakes := Function.update p.disagreeStakes sender
                 (p.disagreeStakes sender + v),
               totalStake := p.totalStake + v } := by
  rw [← update_as_ite]
  rfl

/-- The specification's success effect on the agree side: the ledger
entry for the depositor grows by the amount, the agree event counter by
one, `totalStake` by the amount. -/
def specStakedAgree (p : Prediction) (sender value : Nat) : Prediction :=
  { p with agrees := p.agrees + 1,
           agreeStakes := Function.update p.agreeStakes sender
             (p.agreeStakes sender + value),
           totalStake := p.totalStake + value }

/-- The specification's success effect on the disagree side. -/
def specStakedDisagree (p : Prediction) (sender value : Nat) : Prediction :=
  { p with disagrees := p.disagrees + 1,
           disagreeStakes := Function.update p.disagreeStakes sender
             (p.disagreeStakes sender + value),
           totalStake := p.totalStake + value }

/-- The behaviour claim C6 ascribes to `stake`, written from the
specification's words: fail with `InvalidPrediction` exactly when the id
is out of range, with `ZeroAmount` when the amount is not positive, with
`AlreadyResolved` when the prediction is closed; otherwise apply the
success effect to the targeted prediction. -/
def stakeSpec (s : ContractState) (sender value id : Nat) (agree : Bool) :
    Except Err ContractState :=
  if s.predictions.length ≤ id then .error .InvalidPrediction
  else if value ≤ 0 then .error .ZeroAmount
  else if (predAt s id).resolved then .error .AlreadyResolved
  else if agree then
    .ok { s with predictions := s.predictions.set id (specStakedAgree (predAt s id) sender value) }
  else
    .ok { s with predictions := s.predictions.set id (specStakedDisagree (predAt s id) sender value) }

/-- C6: `stake` produces exactly the error cases and the success effect
that the specification describes, for every state and every argument. -/
theorem C6_stake_meets_spec (s : ContractState) (sender value id : Nat)
    (agree : Bool) :
    stake s sender value id agree = stakeSpec s sender value id agree := by
  unfold stake stakeSpec
  by_cases hlt : id < s.predictions.length
  · rw [if_pos hlt, if_neg (by omega : ¬s.predictions.length ≤ id)]
    by_cases hv : value = 0
    · rw [if_pos hv, if_pos (by omega : value ≤ 0)]
    · rw [if_neg hv, if_neg (by omega : ¬value ≤ 0)]
      by_cases hres : (predAt s id).resolved
      · rw [if_pos hres, if_pos hres]
      · rw [if_neg hres, if_neg hres]
        cases agree
        · rw [stakedPred_false]; rfl
        · rw [stakedPred_true]; rfl
  · rw [if_neg hlt, if_pos (by omega : s.predictions.length ≤ id)]

/-! ### Claims C7 and C9: the reputation update. -/

lemma resolve_false_underflow (s : ContractState) (sender id : Nat)
    (hlt : id < s.predictions.length)
    (hres : (predAt s id).resolved = false)
    (hcr : sender = (predAt s id).creator)
    (hrep : s.reputation (predAt s id).creator < 5) :
    resolvePrediction s sender id false = .error .Underflow := by
  unfold resolvePrediction
  rw [if_pos hlt]
  simp [hres, hcr, hrep]

/-- C7 counterexample: `reputation` is an unsigned `uint256`, not a signed
score.  At the representation's default value 0 - an existing, unresolved
prediction, the creator calling, every precondition of the claim met - the
`-5` adjustment is not applied: the call reverts with a checked-subtraction
underflow, because the score cannot go negative. -/
theorem C7_counterexample_reputation_unsigned :
    sOpen.reputation (predAt sOpen 0).creator = 0 ∧
    (predAt sOpen 0).resolved = false ∧
    0 < sOpen.predictions.length ∧
    (predAt sOpen 0).creator = 10 ∧
    errOf (resolvePrediction sOpen 10 0 false) = some Err.Underflow := by
  refine ⟨by decide, by decide, by decide, by decide, by decide⟩

/-- C7 (amended): on every successful resolve the creator's reputation
gains exactly 10 when the outcome is true and loses exactly 5 when it is
false; the score is unsigned (default 0) and cannot go negative: a
false-outcome resolve with score below 5 fails explicitly with a
checked-subtraction underflow instead of wrapping. -/
theorem C7_reputation_adjustment (s : ContractState) (sender id : Nat) :
    (isOk (resolvePrediction s sender id true) = true →
      (resolveState s sender id true).reputation (predAt s id).creator =
        s.reputation (predAt s id).creator + 10) ∧
    (isOk (resolvePrediction s sender id false) = true →
      (resolveState s sender id false).reputation (predAt s id).creator + 5 =
        s.reputation (predAt s id).creator) ∧
    (id < s.predictions.length → (predAt s id).resolved = false →
      sender = (predAt s id).creator →
      s.reputation (predAt s id).creator < 5 →
      errOf (resolvePrediction s sender id false) = some Err.Underflow) := by
  refine ⟨?_, ?_, ?_⟩
  · intro hok
    cases hr : resolvePrediction s sender id true with
    | error e => rw [hr] at hok; simp [isOk] at hok
    | ok res =>
        obtain ⟨s', tr⟩ := res
        obtain ⟨_, _, _, _, hrep, _, _, _⟩ := resolve_ok_inv hr
        have hstate : resolveState s sender id true = s' := by
          unfold resolveState; rw [hr]
        rw [hstate, hrep]
        rfl
  · intro hok
    cases hr : resolvePrediction s sender id false with
    | error e => rw [hr] at hok; simp [isOk] at hok
    | ok res =>
        obtain ⟨s', tr⟩ := res
        obtain ⟨_, _, _, _, hrep, _, h5, _⟩ := resolve_ok_inv hr
        have hstate : resolveState s sender id false = s' := by
          unfold resolveState; rw [hr]
        have hle := h5 rfl
        rw [hstate, hrep]
        show s.reputation (predAt s id).creator - 5 + 5 =
          s.reputation (predAt s id).creator
        omega
  · intro h1 h2 h3 h4
    rw [resolve_false_underflow s sender id h1 h2 h3 h4]
    rfl

/-- Witness for C7: a creator with reputation 7 gains 10 on a correct
resolution and ends at 2 after an incorrect one; a creator at the default
reputation 0 cannot resolve incorrectly at all. -/
theorem C7_witness :
    (resolveState sRep7 10 0 true).reputation (predAt sRep7 0).creator =
      sRep7.reputation (predAt sRep7 0).creator + 10 ∧
    (resolveState sRep7 10 0 false).reputation (predAt sRep7 0).creator + 5 =
      sRep7.reputation (predAt sRep7 0).creator ∧
    errOf (resolvePrediction sOpen 10 0 false) = some Err.Underflow :=
  ⟨(C7_reputation_adjustment sRep7 10 0).1 (by decide),
   (C7_reputation_adjustment sRep7 10 0).2.1 (by decide),
   (C7_reputation_adjustment sOpen 10 0).2.2 (by decide) (by decide)
     (by decide) (by decide)⟩

/-- C9: while the creator's reputation is below 5 (in particular at its
default 0), a resolve with outcome false by the creator on a valid,
unresolved prediction reverts with a checked-subtraction underflow, so no
state changes. -/
theorem C9_underflow_blocks_incorrect_resolution (s : ContractState)
    (sender id : Nat) (hlt : id < s.predictions.length)
    (hres : (predAt s id).resolved = false)
    (hcr : sender = (predAt s id).creator)
    (hrep : s.reputation (predAt s id).creator < 5) :
    resolvePrediction s sender id false = .error .Underflow :=
  resolve_false_underflow s sender id hlt hres hcr hrep

/-- Witness for C9: the creator 10, at default reputation 0, cannot
resolve their own prediction as incorrect. -/
theorem C9_witness : resolvePrediction sOpen 10 0 false = .error .Underflow :=
  C9_underflow_blocks_incorrect_resolution sOpen 10 0 (by decide) (by decide)
    (by decide) (by decide)

/-! ### Claim C8: the payout loop reaches only cast loop indices. -/

lemma mem_payoutTransfers {n pool divisor : Nat} {stakes : Nat → Nat}
    {pr : Nat × Nat} (h : pr ∈ payoutTransfers n stakes pool divisor) :
    pr.1 < n := by
  unfold payoutTransfers at h
  obtain ⟨i, hi, hmap⟩ := List.mem_filterMap.mp h
  rw [List.mem_range] at hi
  split at hmap
  · cases hmap
    exact lt_of_le_of_lt (Nat.mod_le _ _) hi
  · cases hmap

/-- C8: every transfer of the payout loop goes to an address obtained by
casting a loop index below the number of stored predictions, so any
depositor whose address is at least the store size receives nothing at
resolution, whatever their recorded stake. -/
theorem C8_payout_only_to_cast_indices (s : ContractState) (sender id : Nat)
    (outcome : Bool) :
    (∀ pr ∈ resolveTransfers s sender id outcome,
      pr.1 < s.predictions.length) ∧
    (∀ a, s.predictions.length ≤ a → ∀ amt,
      (a, amt) ∉ resolveTransfers s sender id outcome) := by
  have hmain : ∀ pr ∈ resolveTransfers s sender id outcome,
      pr.1 < s.predictions.length := by
    intro pr hpr
    unfold resolveTransfers at hpr
    cases hr : resolvePrediction s sender id outcome with
    | error e => simp only [hr] at hpr; cases hpr
    | ok res =>
        obtain ⟨s', tr⟩ := res
        simp only [hr] at hpr
        obtain ⟨_, _, _, _, _, _, _, htr⟩ := resolve_ok_inv hr
        rw [htr] at hpr
        unfold payoutPhase at hpr
        by_cases hw : (if outcome then (predAt s id).agrees
            else (predAt s id).disagrees) > 0
        · rw [if_pos hw] at hpr
          by_cases ho : outcome
          · rw [if_pos ho] at hpr
            exact mem_payoutTransfers hpr
          · rw [if_neg ho] at hpr
            exact mem_payoutTransfers hpr
        · rw [if_neg hw] at hpr
          cases hpr
  exact ⟨hmain, fun a ha amt hmem => absurd (hmain (a, amt) hmem) (by omega)⟩

/-- Witness for C8: in the three-prediction state, the loop pays address 1
(a cast index below 3), and the large depositor address 5000 receives
nothing. -/
theorem C8_witness :
    (1, 20000).1 < sSmallAddrs.predictions.length ∧
    (5000, 7) ∉ resolveTransfers sSmallAddrs 1000 0 true :=
  ⟨(C8_payout_only_to_cast_indices sSmallAddrs 1000 0 true).1 (1, 20000)
      (by decide),
   (C8_payout_only_to_cast_indices sSmallAddrs 1000 0 true).2 5000
      (by decide) 7⟩

/-! ### Claim C10: frame conditions of stake and resolve. -/

/-- C10: a stake transaction never changes the reputation mapping, the
number of predictions, or any prediction other than its target; a resolve
transaction never changes the number of predictions, any prediction other
than its target, or the reputation of anyone but the target's creator.
Reverting transactions change nothing at all. -/
theorem C10_frame (s : ContractState) (sender v id : Nat) (agree : Bool)
    (sender2 id2 : Nat) (outcome : Bool) :
    ((step s (Op.stakeOp sender v id agree)).reputation = s.reputation ∧
     (step s (Op.stakeOp sender v id agree)).predictions.length =
       s.predictions.length ∧
     (∀ j, j ≠ id →
       predAt (step s (Op.stakeOp sender v id agree)) j = predAt s j)) ∧
    ((step s (Op.resolveOp sender2 id2 outcome)).predictions.length =
       s.predictions.length ∧
     (∀ j, j ≠ id2 →
       predAt (step s (Op.resolveOp sender2 id2 outcome)) j = predAt s j) ∧
     (∀ a, a ≠ (predAt s id2).creator →
       (step s (Op.resolveOp sender2 id2 outcome)).reputation a =
         s.reputation a)) := by
  constructor
  · simp only [step]
    cases hst : stake s sender v id agree with
    | error e => exact ⟨rfl, rfl, fun j _ => rfl⟩
    | ok s' =>
        obtain ⟨hlt, _, _, hs'⟩ := stake_ok_inv hst
        show s'.reputation = s.reputation ∧
          s'.predictions.length = s.predictions.length ∧
          ∀ j, j ≠ id → predAt s' j = predAt s j
        refine ⟨by rw [hs'], by rw [hs']; simp, ?_⟩
        intro j hj
        rw [hs']
        simp only [predAt]
        exact getD_set_ne _ _ _ _ _ (fun he => hj he.symm)
  · simp only [step, resolveState]
    cases hr : resolvePrediction s sender2 id2 outcome with
    | error e => exact ⟨rfl, fun j _ => rfl, fun a _ => rfl⟩
    | ok res =>
        obtain ⟨s', tr⟩ := res
        obtain ⟨_, _, _, hpreds, _, hrepo, _, _⟩ := resolve_ok_inv hr
        show s'.predictions.length = s.predictions.length ∧
          (∀ j, j ≠ id2 → predAt s' j = predAt s j) ∧
          ∀ a, a ≠ (predAt s id2).creator → s'.reputation a = s.reputation a
        refine ⟨by rw [hpreds]; simp, ?_, hrepo⟩
        intro j hj
        simp only [predAt, hpreds]
        exact getD_set_ne _ _ _ _ _ (fun he => hj he.symm)

/-- Witness for C10 on the three-prediction state: a stake on prediction 0
leaves reputation and prediction 1 alone; a resolve of prediction 0 leaves
prediction 2 and a stranger's reputation alone. -/
theorem C10_witness :
    (step sSmallAddrs (Op.stakeOp 9 5 0 true)).reputation =
      sSmallAddrs.reputation ∧
    predAt (step sSmallAddrs (Op.stakeOp 9 5 0 true)) 1 =
      predAt sSmallAddrs 1 ∧
    predAt (step sSmallAddrs (Op.resolveOp 1000 0 true)) 2 =
      predAt sSmallAddrs 2 ∧
    (step sSmallAddrs (Op.resolveOp 1000 0 true)).reputation 77 =
      sSmallAddrs.reputation 77 :=
  ⟨(C10_frame sSmallAddrs 9 5 0 true 1000 0 true).1.1,
   (C10_frame sSmallAddrs 9 5 0 true 1000 0 true).1.2.2 1 (by decide),
   (C10_frame sSmallAddrs 9 5 0 true 1000 0 true).2.2.1 2 (by decide),
   (C10_frame sSmallAddrs 9 5 0 true 1000 0 true).2.2.2 77 (by decide)⟩

end AlphaLens
